import Mathlib

/-!
# Verification of the Shapediary application core logic

Shallow embedding of `src/shapediary_app.py`: the sentiment scorer, the
prompt generator, and the stateful web handlers (`newimage`,
`confirm_image`, `delete`, `user_delete`, `posts`, `newuser`) over an
explicit application state (ORM store + filesystem), together with
theorems settling the specification claims.
-/

namespace Shapediary

/-- The lexicon `word_dict`: the items of the Python dict mapping each word to
its category string, as loaded from `data/feelings.csv` (lines 38-46). -/
abbrev Lexicon := List (String × String)

/-- Python's `word in text` substring test on strings: `w` occurs as a
contiguous substring of `t`. -/
def wordIn (w t : String) : Bool := decide (w.data <:+: t.data)

/-- The counting loop of `analyze_sentiment` (lines 74-79): one pass over
`word_dict.items()`, incrementing `pos_count` for each word occurring in the
text whose category is `'positive'`, and `neg_count` for each occurring word
with any other category.  Returns `(pos_count, neg_count)`. -/
def sentimentLoop (word_dict : Lexicon) (text : String) : Nat × Nat :=
  word_dict.foldl
    (fun counts wc =>
      if wordIn wc.1 text then
        if wc.2 == "positive" then (counts.1 + 1, counts.2) else (counts.1, counts.2 + 1)
      else counts)
    (0, 0)

/-- `analyze_sentiment` (src/shapediary_app.py lines 71-83): run the counting
loop; if no word matched return the neutral score `0.5`, otherwise return
`pos_count / (pos_count + neg_count)` (real division, embedded in `ℚ`). -/
def analyze_sentiment (word_dict : Lexicon) (text : String) : ℚ :=
  let pos_count := (sentimentLoop word_dict text).1
  let neg_count := (sentimentLoop word_dict text).2
  let total := pos_count + neg_count
  if total = 0 then 0.5
  else (pos_count : ℚ) / (total : ℚ)

/-- The three literal prompt strings and threshold selection of
`generate_prompt` (src/shapediary_app.py lines 86-104). -/
def generate_prompt (sentiment_score : ℚ) : String :=
  let sentiment :=
    if sentiment_score ≥ 0.7 then "positive"
    else if sentiment_score ≥ 0.4 then "neutral"
    else "negative"
  if sentiment == "positive" then
    "A bright yellow and red or orange and lightgreen gradation heart, white background, minimalistic"
  else if sentiment == "negative" then
    "A darkblue and darkgreen or darkred and grey gradation star, white background, minimalistic"
  else
    "A grey and white and green or white and bluegreen gradation circle, white background, minimalistic"

/-- The number of lexicon entries that occur in the text with category
exactly `'positive'`. -/
def pos_count (word_dict : Lexicon) (text : String) : Nat :=
  word_dict.countP (fun wc => wordIn wc.1 text && wc.2 == "positive")

/-- The number of lexicon entries that occur in the text whose category is
anything other than `'positive'`. -/
def neg_count (word_dict : Lexicon) (text : String) : Nat :=
  word_dict.countP (fun wc => wordIn wc.1 text && !(wc.2 == "positive"))

theorem sentimentLoop_eq_counts (word_dict : Lexicon) (text : String) :
    sentimentLoop word_dict text = (pos_count word_dict text, neg_count word_dict text) := by
  suffices h : ∀ (l : Lexicon) (a b : Nat),
      l.foldl
        (fun counts wc =>
          if wordIn wc.1 text then
            if wc.2 == "positive" then (counts.1 + 1, counts.2) else (counts.1, counts.2 + 1)
          else counts)
        (a, b)
      = (a + l.countP (fun wc => wordIn wc.1 text && wc.2 == "positive"),
         b + l.countP (fun wc => wordIn wc.1 text && !(wc.2 == "positive"))) by
    simpa [sentimentLoop, pos_count, neg_count] using h word_dict 0 0
  intro l
  induction l with
  | nil => intro a b; simp
  | cons wc rest ih =>
    intro a b
    rw [List.foldl_cons]
    cases hin : wordIn wc.1 text with
    | false =>
      simp only [hin, Bool.false_eq_true, if_false, ih, List.countP_cons, Bool.false_and,
        Prod.mk.injEq]
      omega
    | true =>
      cases hpos : (wc.2 == "positive") with
      | true =>
        simp only [hin, hpos, if_true, ih, List.countP_cons, Bool.true_and, Bool.not_true,
          Bool.and_false, Bool.false_eq_true, if_false, Prod.mk.injEq]
        omega
      | false =>
        simp only [hin, hpos, Bool.false_eq_true, if_false, if_true, ih, List.countP_cons,
          Bool.true_and, Bool.not_false, Bool.and_true, Prod.mk.injEq]
        omega

theorem pos_count_add_neg_count_eq_zero_iff (word_dict : Lexicon) (text : String) :
    pos_count word_dict text + neg_count word_dict text = 0
      ↔ ∀ wc ∈ word_dict, wordIn wc.1 text = false := by
  rw [Nat.add_eq_zero]
  rw [pos_count, neg_count, List.countP_eq_zero, List.countP_eq_zero]
  constructor
  · rintro ⟨h1, h2⟩ wc hm
    cases hin : wordIn wc.1 text with
    | false => rfl
    | true =>
      cases hcat : (wc.2 == "positive") with
      | true => exact absurd (by rw [hin, hcat]; rfl) (h1 wc hm)
      | false => exact absurd (by rw [hin, hcat]; rfl) (h2 wc hm)
  · intro h
    constructor
    · intro wc hm
      rw [h wc hm]
      simp
    · intro wc hm
      rw [h wc hm]
      simp

theorem analyze_sentiment_eq (word_dict : Lexicon) (text : String) :
    analyze_sentiment word_dict text
      = if pos_count word_dict text + neg_count word_dict text = 0 then 0.5
        else (pos_count word_dict text : ℚ)
              / ((pos_count word_dict text : ℚ) + (neg_count word_dict text : ℚ)) := by
  simp only [analyze_sentiment, sentimentLoop_eq_counts]
  push_cast
  rfl

/-- C4: `analyze_sentiment` counts, per lexicon entry, a boolean substring
occurrence test (once per matching word), accumulating separate positive and
negative counts; it returns exactly `0.5` when no lexicon word occurs in the
text, otherwise `pos_count / (pos_count + neg_count)`, and the result always
lies in `[0, 1]`. -/
theorem analyze_sentiment_spec (word_dict : Lexicon) (text : String) :
    (sentimentLoop word_dict text
        = ((word_dict.filter (fun wc => wordIn wc.1 text && wc.2 == "positive")).length,
           (word_dict.filter (fun wc => wordIn wc.1 text && !(wc.2 == "positive"))).length))
    ∧ ((∀ wc ∈ word_dict, wordIn wc.1 text = false) →
        analyze_sentiment word_dict text = 0.5)
    ∧ ((¬ ∀ wc ∈ word_dict, wordIn wc.1 text = false) →
        analyze_sentiment word_dict text
          = (pos_count word_dict text : ℚ)
              / ((pos_count word_dict text : ℚ) + (neg_count word_dict text : ℚ)))
    ∧ 0 ≤ analyze_sentiment word_dict text ∧ analyze_sentiment word_dict text ≤ 1 := by
  have hshape := analyze_sentiment_eq word_dict text
  have hzero := pos_count_add_neg_count_eq_zero_iff word_dict text
  refine ⟨?_, ?_, ?_, ?_, ?_⟩
  · rw [sentimentLoop_eq_counts, pos_count, neg_count, List.countP_eq_length_filter,
      List.countP_eq_length_filter]
  · intro h
    rw [hshape, if_pos (hzero.mpr h)]
  · intro h
    rw [hshape, if_neg (fun hz => h (hzero.mp hz))]
  · rw [hshape]
    split
    · norm_num
    · positivity
  · rw [hshape]
    split
    · norm_num
    · rename_i htot
      have hpos : (0:ℚ) < (pos_count word_dict text : ℚ) + (neg_count word_dict text : ℚ) := by
        have h0 : 0 < pos_count word_dict text + neg_count word_dict text :=
          Nat.pos_of_ne_zero htot
        exact_mod_cast h0
      rw [div_le_one hpos]
      have hn : (0:ℚ) ≤ (neg_count word_dict text : ℚ) := Nat.cast_nonneg _
      linarith

/-- Witness for `analyze_sentiment_spec` at a concrete lexicon and text. -/
theorem analyze_sentiment_spec_witness :
    analyze_sentiment [("good", "positive"), ("bad", "negative")] "a good bad day" = 1/2 := by
  have h := (analyze_sentiment_spec [("good", "positive"), ("bad", "negative")] "a good bad day").2.2.1
  have h1 : pos_count [("good", "positive"), ("bad", "negative")] "a good bad day" = 1 := by
    decide
  have h2 : neg_count [("good", "positive"), ("bad", "negative")] "a good bad day" = 1 := by
    decide
  rw [h (by decide), h1, h2]
  norm_num

theorem generate_prompt_shape (s : ℚ) :
    generate_prompt s =
      if s ≥ 0.7 then
        "A bright yellow and red or orange and lightgreen gradation heart, white background, minimalistic"
      else if s ≥ 0.4 then
        "A grey and white and green or white and bluegreen gradation circle, white background, minimalistic"
      else
        "A darkblue and darkgreen or darkred and grey gradation star, white background, minimalistic" := by
  by_cases h7 : s ≥ 0.7
  · simp [generate_prompt, h7]
  · by_cases h4 : s ≥ 0.4
    · simp [generate_prompt, h7, h4]
    · simp [generate_prompt, h7, h4]

/-- C5: `generate_prompt` is a pure total function of the score: `score ≥ 0.7`
yields the literal positive-prompt string, `0.4 ≤ score < 0.7` the literal
neutral-prompt string, and `score < 0.4` the literal negative-prompt string;
in particular `0.7` and `1.0` yield the identical positive string, `0.4`
yields neutral, and `0.39999` yields negative. -/
theorem generate_prompt_spec (s : ℚ) :
    (0.7 ≤ s →
      generate_prompt s =
        "A bright yellow and red or orange and lightgreen gradation heart, white background, minimalistic")
    ∧ (0.4 ≤ s → s < 0.7 →
      generate_prompt s =
        "A grey and white and green or white and bluegreen gradation circle, white background, minimalistic")
    ∧ (s < 0.4 →
      generate_prompt s =
        "A darkblue and darkgreen or darkred and grey gradation star, white background, minimalistic")
    ∧ generate_prompt (0.7 : ℚ) = generate_prompt (1 : ℚ)
    ∧ generate_prompt (0.7 : ℚ) =
        "A bright yellow and red or orange and lightgreen gradation heart, white background, minimalistic"
    ∧ generate_prompt (0.4 : ℚ) =
        "A grey and white and green or white and bluegreen gradation circle, white background, minimalistic"
    ∧ generate_prompt (0.39999 : ℚ) =
        "A darkblue and darkgreen or darkred and grey gradation star, white background, minimalistic" := by
  refine ⟨?_, ?_, ?_, ?_, ?_, ?_, ?_⟩
  · intro h
    rw [generate_prompt_shape, if_pos h]
  · intro h4 h7
    rw [generate_prompt_shape, if_neg (by exact fun hc => absurd h7 (not_lt.mpr hc)),
      if_pos h4]
  · intro h4
    rw [generate_prompt_shape, if_neg (by exact fun hc => absurd (lt_of_lt_of_le h4 (by norm_num)) (not_lt.mpr hc)),
      if_neg (fun hc => absurd h4 (not_lt.mpr hc))]
  · rw [generate_prompt_shape, generate_prompt_shape, if_pos (by norm_num), if_pos (by norm_num)]
  · rw [generate_prompt_shape, if_pos (by norm_num)]
  · rw [generate_prompt_shape, if_neg (by norm_num), if_pos (by norm_num)]
  · rw [generate_prompt_shape, if_neg (by norm_num), if_neg (by norm_num)]

/-- Witness for `generate_prompt_spec`, discharging each threshold hypothesis
at a concrete score. -/
theorem generate_prompt_spec_witness :
    generate_prompt (1 : ℚ) =
      "A bright yellow and red or orange and lightgreen gradation heart, white background, minimalistic"
    ∧ generate_prompt (0.5 : ℚ) =
      "A grey and white and green or white and bluegreen gradation circle, white background, minimalistic"
    ∧ generate_prompt (0.1 : ℚ) =
      "A darkblue and darkgreen or darkred and grey gradation star, white background, minimalistic" :=
  ⟨(generate_prompt_spec 1).1 (by norm_num),
   (generate_prompt_spec 0.5).2.1 (by norm_num) (by norm_num),
   (generate_prompt_spec 0.1).2.2.1 (by norm_num)⟩

/-! ## Stateful model: ORM store, filesystem, and the web handlers -/

/-- Raw image bytes (the PNG payload returned by the image requester). -/
abbrev Bytes := List Nat

/-- The filesystem visible to the handlers: an association list from path to
file contents. -/
abbrev FS := List (String × Bytes)

/-- Read a file: `open(path)` / the source operand of `os.rename`. -/
def fsGet (fs : FS) (p : String) : Option Bytes := fs.lookup p

/-- `open(path, "wb").write(bytes)`: create or overwrite the file at `p`. -/
def fsWrite (fs : FS) (p : String) (b : Bytes) : FS :=
  (p, b) :: fs.filter (fun e => decide (e.1 ≠ p))

/-- Remove the file at `p` (the source side of `os.rename`). -/
def fsErase (fs : FS) (p : String) : FS :=
  fs.filter (fun e => decide (e.1 ≠ p))

/-- The `Post` model (src/shapediary_app.py lines 49-60): integer primary key,
NOT NULL text content, owning user id, nullable image path.  The
`date_created` column is not modelled (no claim concerns timestamps). -/
structure Post where
  id : Nat
  content : String
  user_id : Nat
  image_path : Option String
  deriving DecidableEq, Repr

/-- The `User` model (lines 62-66): integer primary key, username, password
hash. -/
structure UserRec where
  id : Nat
  username : String
  password : String
  deriving DecidableEq, Repr

/-- The persistent state the handlers act on: the two ORM tables with their
autoincrement counters, plus the static file directory. -/
structure AppState where
  posts : List Post
  users : List UserRec
  nextPostId : Nat
  nextUserId : Nat
  fs : FS
  deriving DecidableEq, Repr

/-- The request data the embedded handlers consult: query-string parameters
(`request.args`) and form fields (`request.form`), each `none` when absent.
A redirect is followed with a GET request, whose form fields are all `none`. -/
structure Request where
  args_post_id : Option Nat
  args_content : Option String
  form_content : Option String
  form_action : Option String
  form_post_id : Option Nat
  form_diary_entry : Option String
  form_username : Option String
  form_password : Option String
  deriving DecidableEq, Repr

/-- A request with no parameters at all. -/
def Request.empty : Request := ⟨none, none, none, none, none, none, none, none⟩

/-- The observable outcome of a handler: which page is rendered or redirected
to, flash messages, and the unhandled-exception outcomes (`serverError`
carries the Python exception class). -/
inductive Response where
  | renderNewimage (image_path content : String) (post_id : Nat)
  | redirectIndex (flash_msg : Option String)
  | redirectNewimageWith (content : String)
  | redirectEdit
  | redirectLogin (flash_msg : Option String)
  | renderRedirectToNewimage (content : String)
  | renderNewuser (error_msg : Option String)
  | renderLogin
  | notFound
  | serverError (exc : String)
  deriving DecidableEq, Repr

/-- `Post.query.get(pid)` / the lookup behind `get_or_404`. -/
def findPost (posts : List Post) (pid : Nat) : Option Post :=
  posts.find? (fun p => p.id == pid)

/-- The per-user draft path `f"static/{current_user.id}_tmp.png"`. -/
def tmp_path (uid : Nat) : String :=
  "static/" ++ toString uid ++ "_tmp.png"

/-- The permanent path `f"static/{current_user.id}_{post.id}.png"`. -/
def final_path (uid pid : Nat) : String :=
  "static/" ++ toString uid ++ "_" ++ toString pid ++ ".png"

/-- The `newimage` handler (src/shapediary_app.py lines 169-202).
With a `post_id` query parameter the content is re-read from the store
(`Post.query.get`; a missing post raises `AttributeError` at `post.content`).
Without one, the content is read from the POST form — note: not from the
query string — and a new `Post` row is inserted and committed before any
image work; a `none` form content maps to an `INSERT` of SQL `NULL` into the
NOT NULL `content` column, raising `IntegrityError` at `db.session.commit()`.
Then the sentiment score, prompt and image bytes are computed; a falsy
`image_bytes` result (the `None` failure sentinel or empty bytes) flashes an
error and redirects; otherwise the bytes are written to the per-user
temporary path, overwriting any previous draft.
The first half (lines 172-183), resolving content and post id, is split out
as `newimage_resolve`; `Sum.inr` carries the exception class of an aborted
request. -/
def newimage_resolve (uid : Nat) (req : Request) (st : AppState) :
    (AppState × String × Nat) ⊕ String :=
  match req.args_post_id with
  | some pid =>
    match findPost st.posts pid with
    | some post => Sum.inl (st, post.content, pid)
    | none => Sum.inr "AttributeError"
  | none =>
    match req.form_content with
    | some content =>
      Sum.inl
        ({ st with
            posts := st.posts ++ [⟨st.nextPostId, content, uid, none⟩],
            nextPostId := st.nextPostId + 1 },
         content, st.nextPostId)
    | none => Sum.inr "IntegrityError"

def newimage (word_dict : Lexicon) (image_gen : String → Option Bytes) (uid : Nat)
    (req : Request) (st : AppState) : AppState × Response :=
  match newimage_resolve uid req st with
  | Sum.inr exc => (st, Response.serverError exc)
  | Sum.inl (st1, content, pid) =>
    let sentiment_score := analyze_sentiment word_dict content
    let prompt := generate_prompt sentiment_score
    match image_gen prompt with
    | none => (st1, Response.redirectIndex (some "画像生成に失敗しました"))
    | some image_bytes =>
      if image_bytes.isEmpty then
        (st1, Response.redirectIndex (some "画像生成に失敗しました"))
      else
        let image_path := tmp_path uid
        ({ st1 with fs := fsWrite st1.fs image_path image_bytes },
         Response.renderNewimage image_path content pid)

/-- The `confirm_image` handler (src/shapediary_app.py lines 205-227).
`action == "redo"` redirects to `newimage` carrying the content as a query
parameter; any other action value falls through to the confirm path: the
post is fetched (`get_or_404`), the temporary file is renamed to the
permanent per-post path (a missing temporary file raises
`FileNotFoundError`), and the post's `image_path` column is committed. -/
def confirm_image (uid : Nat) (req : Request) (st : AppState) : AppState × Response :=
  match req.form_action with
  | none => (st, Response.serverError "BadRequestKeyError")
  | some action =>
    if action == "redo" then
      match req.form_content with
      | none => (st, Response.serverError "BadRequestKeyError")
      | some content => (st, Response.redirectNewimageWith content)
    else
      match req.form_post_id with
      | none => (st, Response.serverError "BadRequestKeyError")
      | some post_id =>
        match findPost st.posts post_id with
        | none => (st, Response.notFound)
        | some post =>
          let tmp := tmp_path uid
          let fin := final_path uid post.id
          match fsGet st.fs tmp with
          | none => (st, Response.serverError "FileNotFoundError")
          | some b =>
            ({ st with
                posts := st.posts.map (fun p =>
                  if p.id == post.id then { p with image_path := some fin } else p),
                fs := fsWrite (fsErase st.fs tmp) fin b },
             Response.redirectIndex none)

/-- The GET request produced by following the redo redirect
`redirect(url_for('newimage', content=content))`: the content travels in the
query string, and the form of the follow-up GET is empty. -/
def redo_request (content : String) : Request :=
  { Request.empty with args_content := some content }

/-- The `posts` handler (lines 283-300): `action == "generate"` renders the
intermediate page that re-posts to `newimage`; any other action inserts and
commits a text-only post. -/
def posts_route (uid : Nat) (req : Request) (st : AppState) : AppState × Response :=
  match req.form_diary_entry with
  | none => (st, Response.serverError "BadRequestKeyError")
  | some content =>
    if req.form_action == some "generate" then
      (st, Response.renderRedirectToNewimage content)
    else
      ({ st with
          posts := st.posts ++ [⟨st.nextPostId, content, uid, none⟩],
          nextPostId := st.nextPostId + 1 },
       Response.redirectIndex none)

/-- The `delete` handler (lines 310-319): fetch the post (`get_or_404`); if
it belongs to a different user, silently redirect to the edit page without
touching the store; otherwise delete the row and commit. -/
def delete (uid : Nat) (post_id : Nat) (st : AppState) : AppState × Response :=
  match findPost st.posts post_id with
  | none => (st, Response.notFound)
  | some post =>
    if post.user_id ≠ uid then
      (st, Response.redirectEdit)
    else
      ({ st with posts := st.posts.filter (fun p => decide (p.id ≠ post_id)) },
       Response.redirectEdit)

/-- The `user_delete` handler (lines 331-344): delete every post whose
`user_id` is the current user's, delete the user row, and commit once. -/
def user_delete (uid : Nat) (st : AppState) : AppState × Response :=
  ({ st with
      posts := st.posts.filter (fun p => decide (p.user_id ≠ uid)),
      users := st.users.filter (fun u => decide (u.id ≠ uid)) },
   Response.redirectLogin (some "アカウントと投稿がすべて削除されました。"))

/-- The POST branch of the `newuser` handler (lines 230-253): reject a
missing or empty username or password and a duplicate username; otherwise
insert the user with the hashed password (hashing is delegated to the
library, passed here as `hash_fn`). -/
def newuser (hash_fn : String → String) (req : Request) (st : AppState) :
    AppState × Response :=
  match req.form_username with
  | none => (st, Response.renderNewuser (some "ユーザー名を入力してください"))
  | some uname =>
    if uname = "" then (st, Response.renderNewuser (some "ユーザー名を入力してください"))
    else
      match req.form_password with
      | none => (st, Response.renderNewuser (some "パスワードを入力してください"))
      | some pw =>
        if pw = "" then (st, Response.renderNewuser (some "パスワードを入力してください"))
        else if st.users.any (fun u => u.username == uname) then
          (st, Response.renderNewuser (some "すでに登録されているユーザー名です"))
        else
          ({ st with
              users := st.users ++ [⟨st.nextUserId, uname, hash_fn pw⟩],
              nextUserId := st.nextUserId + 1 },
           Response.renderLogin)

/-! ## Filesystem lemmas -/

theorem lookup_filter_ne (fs : FS) (p q : String) (h : q ≠ p) :
    List.lookup q (fs.filter (fun e => decide (e.1 ≠ p))) = List.lookup q fs := by
  induction fs with
  | nil => rfl
  | cons e rest ih =>
    obtain ⟨k, v⟩ := e
    simp only [decide_not] at ih
    simp only [List.filter_cons, decide_not]
    by_cases hk : k = p
    · subst hk
      have hq : (q == k) = false := by
        simp only [beq_eq_false_iff_ne]
        exact h
      simp [List.lookup, hq, ih]
    · by_cases hq : q = k
      · subst hq
        simp [List.lookup, hk]
      · have hq' : (q == k) = false := by
          simp only [beq_eq_false_iff_ne]
          exact hq
        simp [List.lookup, hk, hq', ih]

theorem fsGet_fsWrite_self (fs : FS) (p : String) (b : Bytes) :
    fsGet (fsWrite fs p b) p = some b := by
  simp [fsGet, fsWrite, List.lookup]

theorem fsGet_fsWrite_ne (fs : FS) (p q : String) (b : Bytes) (h : q ≠ p) :
    fsGet (fsWrite fs p b) q = fsGet fs q := by
  have hq : (q == p) = false := by
    simp only [beq_eq_false_iff_ne]
    exact h
  simp only [fsGet, fsWrite, List.lookup, hq]
  exact lookup_filter_ne fs p q h

theorem fsGet_fsErase_self (fs : FS) (p : String) :
    fsGet (fsErase fs p) p = none := by
  induction fs with
  | nil => rfl
  | cons e rest ih =>
    obtain ⟨k, v⟩ := e
    simp only [fsErase, fsGet, decide_not] at ih ⊢
    simp only [List.filter_cons, decide_not]
    by_cases hk : k = p
    · subst hk
      simp [List.lookup, ih]
    · have hq : (p == k) = false := by
        simp only [beq_eq_false_iff_ne]
        exact fun hc => hk hc.symm
      simp [List.lookup, hk, hq, ih]

theorem fsGet_fsErase_ne (fs : FS) (p q : String) (h : q ≠ p) :
    fsGet (fsErase fs p) q = fsGet fs q := lookup_filter_ne fs p q h

/-! ## Path disequality: a decimal-rendered id never reads `tmp` -/

theorem digitChar_ne_t (n : Nat) (h : n < 10) : Nat.digitChar n ≠ 't' := by
  interval_cases n <;> decide

theorem toDigitsCore_ne_t :
    ∀ (f n : Nat) (ds : List Char), (∀ c ∈ ds, c ≠ 't') →
      ∀ c ∈ Nat.toDigitsCore 10 f n ds, c ≠ 't' := by
  intro f
  induction f with
  | zero =>
    intro n ds hds
    simpa [Nat.toDigitsCore] using hds
  | succ f ih =>
    intro n ds hds
    rw [Nat.toDigitsCore]
    have hcons : ∀ c ∈ Nat.digitChar (n % 10) :: ds, c ≠ 't' := by
      intro c hc
      rcases List.mem_cons.mp hc with h | h
      · rw [h]; exact digitChar_ne_t _ (Nat.mod_lt _ (by norm_num))
      · exact hds c h
    split
    · exact hcons
    · exact ih _ _ hcons

theorem toString_nat_ne_t (n : Nat) : ∀ c ∈ (toString n).data, c ≠ 't' := by
  have h : (toString n).data = Nat.toDigitsCore 10 (n + 1) n [] := rfl
  rw [h]
  exact toDigitsCore_ne_t (n + 1) n [] (by intro c hc; cases hc)

theorem tmp_path_ne_final_path (uid pid : Nat) : tmp_path uid ≠ final_path uid pid := by
  intro h
  have hd : (tmp_path uid).data = (final_path uid pid).data := congrArg String.data h
  rw [tmp_path, final_path] at hd
  simp only [String.data_append, List.append_assoc] at hd
  have h2 := List.append_cancel_left hd
  have h3 := List.append_cancel_left h2
  simp only [List.cons_append, List.nil_append, List.cons.injEq, true_and] at h3
  have h4 : ['t', 'm', 'p', '.', 'p', 'n', 'g'] = (toString pid).data ++ ['.', 'p', 'n', 'g'] :=
    h3
  cases hp : (toString pid).data with
  | nil =>
    rw [hp] at h4
    exact absurd h4 (by decide)
  | cons c cs =>
    rw [hp, List.cons_append] at h4
    have hc : c = 't' := (List.cons.injEq _ _ _ _ ▸ h4).1.symm
    have hmem : c ∈ (toString pid).data := by
      rw [hp]
      exact List.mem_cons_self _ _
    exact toString_nat_ne_t pid c hmem hc

/-! ## Reachable states -/

/-- The empty store and filesystem right after `db.create_all()`: no rows,
both autoincrement counters at 1. -/
def initState : AppState := ⟨[], [], 1, 1, []⟩

/-- `current_user.id = uid` belongs to a registered user (`login_required`). -/
def authed (st : AppState) (uid : Nat) : Bool :=
  st.users.any (fun u => u.id == uid)

/-- One state-mutating HTTP request handled by the application.  The
image-generation oracle, the password-hashing function, the request data and
the authenticated user vary freely; read-only routes (`index`, `login`,
`logout`, `edit`, `user_delete_confirm`) never touch the store or the
filesystem and are omitted. -/
inductive Step (word_dict : Lexicon) : AppState → AppState → Prop
  | newuser_step (hash_fn : String → String) (req : Request) (st st' : AppState)
      (h : st' = (newuser hash_fn req st).1) : Step word_dict st st'
  | posts_step (uid : Nat) (req : Request) (st st' : AppState)
      (hauth : authed st uid = true)
      (h : st' = (posts_route uid req st).1) : Step word_dict st st'
  | newimage_step (image_gen : String → Option Bytes) (uid : Nat) (req : Request)
      (st st' : AppState)
      (hauth : authed st uid = true)
      (h : st' = (newimage word_dict image_gen uid req st).1) : Step word_dict st st'
  | confirm_step (uid : Nat) (req : Request) (st st' : AppState)
      (hauth : authed st uid = true)
      (h : st' = (confirm_image uid req st).1) : Step word_dict st st'
  | delete_step (uid pid : Nat) (st st' : AppState)
      (hauth : authed st uid = true)
      (h : st' = (delete uid pid st).1) : Step word_dict st st'
  | user_delete_step (uid : Nat) (st st' : AppState)
      (hauth : authed st uid = true)
      (h : st' = (user_delete uid st).1) : Step word_dict st st'

/-- States reachable from the fresh database by some request sequence. -/
def Reachable (word_dict : Lexicon) (st : AppState) : Prop :=
  Relation.ReflTransGen (Step word_dict) initState st

/-! ### A concrete reachable state where a foreign user confirms a draft -/

/-- State after registering user 1 (`alice`). -/
def stA : AppState := ⟨[], [⟨1, "alice", "pw"⟩], 1, 2, []⟩

/-- State after additionally registering user 2 (`bob`). -/
def stB : AppState := ⟨[], [⟨1, "alice", "pw"⟩, ⟨2, "bob", "pw"⟩], 1, 3, []⟩

/-- State after alice submits a text-only diary entry. -/
def stC : AppState :=
  ⟨[⟨1, "hello", 1, none⟩], [⟨1, "alice", "pw"⟩, ⟨2, "bob", "pw"⟩], 2, 3, []⟩

/-- State after bob requests an image for alice's post (`newimage` has no
ownership check), leaving bob's draft file. -/
def stD : AppState :=
  ⟨[⟨1, "hello", 1, none⟩], [⟨1, "alice", "pw"⟩, ⟨2, "bob", "pw"⟩], 2, 3,
   [("static/2_tmp.png", [0])]⟩

/-- State after bob confirms: alice's post now carries the path
`static/2_1.png`, keyed by bob's id, not the owner's. -/
def stolen_state : AppState :=
  ⟨[⟨1, "hello", 1, some "static/2_1.png"⟩], [⟨1, "alice", "pw"⟩, ⟨2, "bob", "pw"⟩], 2, 3,
   [("static/2_1.png", [0])]⟩

theorem stolen_state_reachable : Reachable [] stolen_state := by
  refine Relation.ReflTransGen.tail (Relation.ReflTransGen.tail (Relation.ReflTransGen.tail
    (Relation.ReflTransGen.tail (Relation.ReflTransGen.tail Relation.ReflTransGen.refl
      (Step.newuser_step (fun s => s)
        { Request.empty with form_username := some "alice", form_password := some "pw" }
        initState stA (by decide)))
      (Step.newuser_step (fun s => s)
        { Request.empty with form_username := some "bob", form_password := some "pw" }
        stA stB (by decide)))
      (Step.posts_step 1 { Request.empty with form_diary_entry := some "hello" }
        stB stC (by decide) (by decide)))
      (Step.newimage_step (fun _ => some [0]) 2 { Request.empty with args_post_id := some 1 }
        stC stD (by decide) (by decide)))
      (Step.confirm_step 2
        { Request.empty with form_action := some "confirm", form_post_id := some 1 }
        stD stolen_state (by decide) (by decide))

/-! ### What each handler does to the stored image paths -/

theorem mem_append_single {posts : List Post} {p q : Post} (hq : q.image_path = none)
    (hp : p ∈ posts ++ [q]) : p ∈ posts ∨ p.image_path = none := by
  rcases List.mem_append.mp hp with h | h
  · exact Or.inl h
  · rcases List.mem_singleton.mp h with rfl
    exact Or.inr hq

theorem newuser_posts_eq (hash_fn : String → String) (req : Request) (st : AppState) :
    (newuser hash_fn req st).1.posts = st.posts := by
  unfold newuser
  repeat' split
  all_goals rfl

theorem user_delete_posts_sub (uid : Nat) (st : AppState) :
    ∀ p ∈ (user_delete uid st).1.posts, p ∈ st.posts := by
  intro p hp
  exact List.mem_of_mem_filter hp

theorem delete_posts_sub (uid pid : Nat) (st : AppState) :
    ∀ p ∈ (delete uid pid st).1.posts, p ∈ st.posts := by
  intro p hp
  unfold delete at hp
  repeat' split at hp
  all_goals first
    | exact hp
    | exact List.mem_of_mem_filter hp

theorem posts_route_mem (uid : Nat) (req : Request) (st : AppState) :
    ∀ p ∈ (posts_route uid req st).1.posts, p ∈ st.posts ∨ p.image_path = none := by
  intro p hp
  unfold posts_route at hp
  repeat' split at hp
  all_goals first
    | exact Or.inl hp
    | exact mem_append_single rfl hp

theorem newimage_resolve_mem (uid : Nat) (req : Request) (st st1 : AppState)
    (content : String) (pid : Nat)
    (h : newimage_resolve uid req st = Sum.inl (st1, content, pid)) :
    ∀ p ∈ st1.posts, p ∈ st.posts ∨ p.image_path = none := by
  unfold newimage_resolve at h
  repeat' split at h
  all_goals cases h
  · intro p hp
    exact Or.inl hp
  · intro p hp
    exact mem_append_single rfl hp

theorem newimage_mem (word_dict : Lexicon) (image_gen : String → Option Bytes) (uid : Nat)
    (req : Request) (st : AppState) :
    ∀ p ∈ (newimage word_dict image_gen uid req st).1.posts,
      p ∈ st.posts ∨ p.image_path = none := by
  intro p hp
  unfold newimage at hp
  rcases hres : newimage_resolve uid req st with ⟨st1, content, pid⟩ | exc
  · rw [hres] at hp
    dsimp only at hp
    repeat' split at hp
    all_goals exact newimage_resolve_mem uid req st st1 content pid hres p hp
  · rw [hres] at hp
    exact Or.inl hp

theorem confirm_image_mem (uid : Nat) (req : Request) (st : AppState) :
    ∀ p ∈ (confirm_image uid req st).1.posts,
      p ∈ st.posts ∨ ∃ c, p.image_path = some (final_path c p.id) := by
  intro p hp
  unfold confirm_image at hp
  rcases hact : req.form_action with _ | action
  · rw [hact] at hp
    exact Or.inl hp
  · rw [hact] at hp
    dsimp only at hp
    by_cases hredo : (action == "redo") = true
    · rw [if_pos hredo] at hp
      rcases hc : req.form_content with _ | c
      · rw [hc] at hp
        exact Or.inl hp
      · rw [hc] at hp
        exact Or.inl hp
    · rw [if_neg hredo] at hp
      rcases hpid : req.form_post_id with _ | pid
      · rw [hpid] at hp
        exact Or.inl hp
      · rw [hpid] at hp
        dsimp only at hp
        rcases hfind : findPost st.posts pid with _ | post
        · rw [hfind] at hp
          exact Or.inl hp
        · rw [hfind] at hp
          dsimp only at hp
          rcases htmp : fsGet st.fs (tmp_path uid) with _ | b
          · rw [htmp] at hp
            exact Or.inl hp
          · rw [htmp] at hp
            dsimp only at hp
            rcases List.mem_map.mp hp with ⟨q, hq, hfq⟩
            by_cases hid : (q.id == post.id) = true
            · rw [if_pos hid] at hfq
              refine Or.inr ⟨uid, ?_⟩
              rw [← hfq]
              have hqid : q.id = post.id := beq_iff_eq.mp hid
              simp [hqid]
            · rw [if_neg hid] at hfq
              rw [← hfq]
              exact Or.inl hq

theorem step_mem (word_dict : Lexicon) {st st' : AppState} (h : Step word_dict st st') :
    ∀ p ∈ st'.posts,
      p ∈ st.posts ∨ p.image_path = none ∨ ∃ c, p.image_path = some (final_path c p.id) := by
  cases h with
  | newuser_step hash_fn req s s' hh =>
    intro p hp
    rw [hh, newuser_posts_eq] at hp
    exact Or.inl hp
  | posts_step uid req s s' hauth hh =>
    intro p hp
    rw [hh] at hp
    rcases posts_route_mem uid req st p hp with h1 | h1
    · exact Or.inl h1
    · exact Or.inr (Or.inl h1)
  | newimage_step image_gen uid req s s' hauth hh =>
    intro p hp
    rw [hh] at hp
    rcases newimage_mem word_dict image_gen uid req st p hp with h1 | h1
    · exact Or.inl h1
    · exact Or.inr (Or.inl h1)
  | confirm_step uid req s s' hauth hh =>
    intro p hp
    rw [hh] at hp
    rcases confirm_image_mem uid req st p hp with h1 | h1
    · exact Or.inl h1
    · exact Or.inr (Or.inr h1)
  | delete_step uid pid s s' hauth hh =>
    intro p hp
    rw [hh] at hp
    exact Or.inl (delete_posts_sub uid pid st p hp)
  | user_delete_step uid s s' hauth hh =>
    intro p hp
    rw [hh] at hp
    exact Or.inl (user_delete_posts_sub uid st p hp)

/-! ## C3: image-path format invariant -/

/-- C3, counterexample: the claimed invariant — that a present image path is
always `static/{owner_id}_{post_id}.png` with the *owning* user's id — fails
on a reachable state: `confirm_image` has no ownership check and builds the
path from `current_user.id`, so bob (user 2) confirming alice's post 1
produces the stored path `static/2_1.png` on a post owned by user 1. -/
theorem image_path_owner_format_counterexample :
    ¬ (∀ (word_dict : Lexicon) (st : AppState), Reachable word_dict st →
        ∀ p ∈ st.posts, ∀ ip, p.image_path = some ip → ip = final_path p.user_id p.id) := by
  intro hclaim
  have h := hclaim [] stolen_state stolen_state_reachable
      ⟨1, "hello", 1, some "static/2_1.png"⟩ (by decide) "static/2_1.png" rfl
  exact absurd h (by decide)

/-- C3, amended: over all reachable states, a present image path is
`static/{c}_{post_id}.png` where `c` is the id of the (authenticated) user
who performed the confirm action — not necessarily the post's owner. -/
theorem image_path_confirmer_format (word_dict : Lexicon) (st : AppState)
    (h : Reachable word_dict st) :
    ∀ p ∈ st.posts, ∀ ip, p.image_path = some ip → ∃ c, ip = final_path c p.id := by
  induction h with
  | refl =>
    intro p hp
    simp [initState] at hp
  | tail hr hstep ih =>
    intro p hp ip hip
    rcases step_mem word_dict hstep p hp with hmem | hnone | ⟨c, hc⟩
    · exact ih p hmem ip hip
    · rw [hnone] at hip
      exact Option.noConfusion hip
    · rw [hc] at hip
      exact ⟨c, (Option.some_inj.mp hip).symm⟩

/-- Witness for `image_path_confirmer_format` at the concrete reachable
state built above. -/
theorem image_path_confirmer_format_witness :
    ∃ c, "static/2_1.png" = final_path c 1 :=
  image_path_confirmer_format [] stolen_state stolen_state_reachable
    ⟨1, "hello", 1, some "static/2_1.png"⟩ (by decide) "static/2_1.png" rfl

/-! ## C1: effect of an image-generation failure in `newimage` -/

/-- C1, amended: when the Image Requester returns the `None` sentinel, the
rest of the workflow is aborted — in the existing-post path the state is
completely unchanged, but in the new-post path the new `Post` row has
already been inserted and committed *before* the image request, and it
remains in the store after the failure (the only change, `nextPostId`
included; users and files untouched). -/
theorem newimage_failure_effect (word_dict : Lexicon) (image_gen : String → Option Bytes)
    (uid : Nat) (req : Request) (st : AppState) :
    (∀ pid post, req.args_post_id = some pid → findPost st.posts pid = some post →
      image_gen (generate_prompt (analyze_sentiment word_dict post.content)) = none →
      (newimage word_dict image_gen uid req st).1 = st)
    ∧ (∀ c, req.args_post_id = none → req.form_content = some c →
      image_gen (generate_prompt (analyze_sentiment word_dict c)) = none →
      (newimage word_dict image_gen uid req st).1
        = { st with
            posts := st.posts ++ [⟨st.nextPostId, c, uid, none⟩],
            nextPostId := st.nextPostId + 1 }) := by
  constructor
  · intro pid post h1 h2 h3
    unfold newimage newimage_resolve
    rw [h1]
    dsimp only
    rw [h2]
    dsimp only
    rw [h3]
  · intro c h1 h2 h3
    unfold newimage newimage_resolve
    rw [h1]
    dsimp only
    rw [h2]
    dsimp only
    rw [h3]

/-- Witness for `newimage_failure_effect`: a concrete failing generation on
the new-post path, showing the committed post persists. -/
theorem newimage_failure_effect_witness :
    (newimage [] (fun _ => none) 1 { Request.empty with form_content := some "x" }
        ⟨[], [⟨1, "u", "p"⟩], 1, 2, []⟩).1
      = ⟨[⟨1, "x", 1, none⟩], [⟨1, "u", "p"⟩], 2, 2, []⟩ :=
  ((newimage_failure_effect [] (fun _ => none) 1
      { Request.empty with form_content := some "x" }
      ⟨[], [⟨1, "u", "p"⟩], 1, 2, []⟩).2 "x" rfl rfl rfl).trans (by decide)

/-- C1, counterexample to the claim as stated: on the new-post path a `Post`
record that did not exist before the request exists after it even though the
Image Requester failed. -/
theorem newimage_failure_new_post_counterexample :
    (⟨1, "x", 1, none⟩ : Post) ∈ (newimage [] (fun _ => none) 1
        { Request.empty with form_content := some "x" }
        ⟨[], [⟨1, "u", "p"⟩], 1, 2, []⟩).1.posts
    ∧ (⟨1, "x", 1, none⟩ : Post) ∉ (⟨[], [⟨1, "u", "p"⟩], 1, 2, []⟩ : AppState).posts := by
  decide

/-! ## C2: the redo action loses the edited content -/

/-- C2: the redo branch of `confirm_image` does emit a redirect to
`newimage` carrying the edited content as a query parameter, but the
follow-up GET is handled by the form-reading branch of `newimage`
(`request.form.get('content')`), which is empty on a GET: the content
resolves to `None`, the `INSERT` violates the NOT NULL constraint and the
request dies with `IntegrityError` — for every lexicon and every
image-generation oracle, no scorer/prompt/image work runs and the state
(old draft file included) is unchanged. -/
theorem confirm_image_redo_lost_content (word_dict : Lexicon)
    (image_gen : String → Option Bytes) :
    confirm_image 2
        { Request.empty with form_action := some "redo", form_content := some "hello edited" }
        stD
      = (stD, Response.redirectNewimageWith "hello edited")
    ∧ newimage word_dict image_gen 2 (redo_request "hello edited") stD
      = (stD, Response.serverError "IntegrityError")
    ∧ fsGet stD.fs (tmp_path 2) = some [0] := by
  refine ⟨by decide, ?_, by decide⟩
  unfold newimage newimage_resolve redo_request Request.empty
  dsimp only

/-! ## C6: confirm promotes the draft file and persists the path -/

/-- C6: for a confirm action carrying a post identifier, taken from the
Drafted state (the per-user temporary file exists) on an existing post:
afterwards the temporary file is gone from its old path, the permanent
per-post path holds exactly the former temporary file's bytes, and the
post's stored image-path field equals that permanent path. -/
theorem confirm_image_confirm_effect (uid : Nat) (req : Request) (st : AppState)
    (pid : Nat) (post : Post) (b : Bytes)
    (hact : req.form_action = some "confirm")
    (hpid : req.form_post_id = some pid)
    (hfind : findPost st.posts pid = some post)
    (htmp : fsGet st.fs (tmp_path uid) = some b) :
    fsGet (confirm_image uid req st).1.fs (tmp_path uid) = none
    ∧ fsGet (confirm_image uid req st).1.fs (final_path uid post.id) = some b
    ∧ (∀ q ∈ (confirm_image uid req st).1.posts,
        q.id = post.id → q.image_path = some (final_path uid post.id))
    ∧ (confirm_image uid req st).2 = Response.redirectIndex none := by
  have hshape : confirm_image uid req st
      = ({ st with
            posts := st.posts.map (fun p =>
              if p.id == post.id then
                { p with image_path := some (final_path uid post.id) }
              else p),
            fs := fsWrite (fsErase st.fs (tmp_path uid)) (final_path uid post.id) b },
         Response.redirectIndex none) := by
    unfold confirm_image
    rw [hact]
    dsimp only
    rw [if_neg (by decide)]
    rw [hpid]
    dsimp only
    rw [hfind]
    dsimp only
    rw [htmp]
  refine ⟨?_, ?_, ?_, ?_⟩
  · rw [hshape]
    dsimp only
    rw [fsGet_fsWrite_ne _ _ _ _ (tmp_path_ne_final_path uid post.id)]
    exact fsGet_fsErase_self st.fs (tmp_path uid)
  · rw [hshape]
    dsimp only
    exact fsGet_fsWrite_self _ _ _
  · rw [hshape]
    dsimp only
    intro q hq hqid
    rcases List.mem_map.mp hq with ⟨r, hr, hfr⟩
    by_cases hb : (r.id == post.id) = true
    · rw [if_pos hb] at hfr
      rw [← hfr]
    · rw [if_neg hb] at hfr
      rw [← hfr] at hqid
      exact absurd (beq_iff_eq.mpr hqid) hb
  · rw [hshape]

/-- Witness for `confirm_image_confirm_effect` at the concrete drafted
state `stD`. -/
theorem confirm_image_confirm_effect_witness :
    fsGet (confirm_image 2
        { Request.empty with form_action := some "confirm", form_post_id := some 1 }
        stD).1.fs (tmp_path 2) = none
    ∧ fsGet (confirm_image 2
        { Request.empty with form_action := some "confirm", form_post_id := some 1 }
        stD).1.fs (final_path 2 1) = some [0] :=
  have h := confirm_image_confirm_effect 2
    { Request.empty with form_action := some "confirm", form_post_id := some 1 }
    stD 1 ⟨1, "hello", 1, none⟩ [0] rfl rfl (by decide) (by decide)
  ⟨h.1, h.2.1⟩

/-! ## C7 and C8: delete authorization and account-deletion cascade -/

/-- A two-user store used to instantiate the delete theorems. -/
def two_user_state : AppState :=
  ⟨[⟨1, "a1", 1, none⟩, ⟨2, "b2", 2, none⟩],
   [⟨1, "u1", "p"⟩, ⟨2, "u2", "p"⟩], 3, 3, []⟩

/-- C7: a delete request against an existing post owned by a different user
performs no store mutation at all and silently redirects to the edit page;
an owner's delete request removes exactly that post (by its id) and keeps
everything else. -/
theorem delete_spec (uid pid : Nat) (st : AppState) (post : Post)
    (hfind : findPost st.posts pid = some post) :
    (post.user_id ≠ uid → delete uid pid st = (st, Response.redirectEdit))
    ∧ (post.user_id = uid →
        (delete uid pid st).1.posts = st.posts.filter (fun p => decide (p.id ≠ pid))
        ∧ (delete uid pid st).1.users = st.users
        ∧ (delete uid pid st).1.fs = st.fs
        ∧ (∀ q ∈ (delete uid pid st).1.posts, q.id ≠ pid)
        ∧ (∀ q ∈ st.posts, q.id ≠ pid → q ∈ (delete uid pid st).1.posts)
        ∧ (delete uid pid st).2 = Response.redirectEdit) := by
  constructor
  · intro hne
    unfold delete
    rw [hfind]
    dsimp only
    rw [if_pos hne]
  · intro hown
    have hshape : delete uid pid st
        = ({ st with posts := st.posts.filter (fun p => decide (p.id ≠ pid)) },
           Response.redirectEdit) := by
      unfold delete
      rw [hfind]
      dsimp only
      rw [if_neg (by simp [hown])]
    rw [hshape]
    refine ⟨rfl, rfl, rfl, ?_, ?_, rfl⟩
    · intro q hq
      have := List.of_mem_filter hq
      simpa using this
    · intro q hq hne
      exact List.mem_filter.mpr ⟨hq, by simpa using hne⟩

/-- Witness for `delete_spec`: the foreign-user branch and the owner branch
at the concrete two-user store. -/
theorem delete_spec_witness :
    delete 2 1 two_user_state = (two_user_state, Response.redirectEdit)
    ∧ (delete 1 1 two_user_state).1.posts = [⟨2, "b2", 2, none⟩] :=
  ⟨(delete_spec 2 1 two_user_state ⟨1, "a1", 1, none⟩ (by decide)).1 (by decide),
   ((delete_spec 1 1 two_user_state ⟨1, "a1", 1, none⟩ (by decide)).2 rfl).1.trans
     (by decide)⟩

/-- C8: account deletion removes exactly the current user's posts and the
current user's record in one atomic state update; every other user's posts
and every other user record survive unchanged. -/
theorem user_delete_spec (uid : Nat) (st : AppState) :
    (user_delete uid st).1.posts = st.posts.filter (fun p => decide (p.user_id ≠ uid))
    ∧ (user_delete uid st).1.users = st.users.filter (fun u => decide (u.id ≠ uid))
    ∧ (∀ p ∈ (user_delete uid st).1.posts, p ∈ st.posts ∧ p.user_id ≠ uid)
    ∧ (∀ p ∈ st.posts, p.user_id ≠ uid → p ∈ (user_delete uid st).1.posts)
    ∧ (∀ u ∈ (user_delete uid st).1.users, u ∈ st.users ∧ u.id ≠ uid)
    ∧ (∀ u ∈ st.users, u.id ≠ uid → u ∈ (user_delete uid st).1.users)
    ∧ (user_delete uid st).2
        = Response.redirectLogin (some "アカウントと投稿がすべて削除されました。") := by
  refine ⟨rfl, rfl, ?_, ?_, ?_, ?_, rfl⟩
  · intro p hp
    have h1 := List.mem_of_mem_filter hp
    have h2 := List.of_mem_filter hp
    exact ⟨h1, by simpa using h2⟩
  · intro p hp hne
    exact List.mem_filter.mpr ⟨hp, by simpa using hne⟩
  · intro u hu
    have h1 := List.mem_of_mem_filter hu
    have h2 := List.of_mem_filter hu
    exact ⟨h1, by simpa using h2⟩
  · intro u hu hne
    exact List.mem_filter.mpr ⟨hu, by simpa using hne⟩

/-- Witness for `user_delete_spec`: deleting user 1 in the two-user store
keeps exactly user 2's post and record. -/
theorem user_delete_spec_witness :
    (user_delete 1 two_user_state).1.posts = [⟨2, "b2", 2, none⟩]
    ∧ (⟨2, "b2", 2, none⟩ : Post) ∈ (user_delete 1 two_user_state).1.posts
    ∧ (⟨2, "u2", "p"⟩ : UserRec) ∈ (user_delete 1 two_user_state).1.users :=
  ⟨(user_delete_spec 1 two_user_state).1.trans (by decide),
   (user_delete_spec 1 two_user_state).2.2.2.1 ⟨2, "b2", 2, none⟩ (by decide) (by decide),
   (user_delete_spec 1 two_user_state).2.2.2.2.2.1 ⟨2, "u2", "p"⟩ (by decide) (by decide)⟩

/-! ## C9: every non-redo action is treated as confirm -/

/-- C9: `confirm_image` compares the action only against the literal
`"redo"`; any other action value — not only `"confirm"` — takes the confirm
path, behaving exactly as if the action had been `"confirm"`. -/
theorem confirm_image_nonredo (uid : Nat) (req : Request) (st : AppState) (action : String)
    (hact : req.form_action = some action) (hne : action ≠ "redo") :
    confirm_image uid req st
      = confirm_image uid { req with form_action := some "confirm" } st := by
  unfold confirm_image
  rw [hact]
  dsimp only
  rw [if_neg (by simpa using hne), if_neg (by decide)]

/-- Witness for `confirm_image_nonredo`: an unrecognized action value
behaves exactly like `"confirm"` on the drafted state `stD`. -/
theorem confirm_image_nonredo_witness :
    confirm_image 2
        { Request.empty with form_action := some "frobnicate", form_post_id := some 1 } stD
      = confirm_image 2
        { Request.empty with form_action := some "confirm", form_post_id := some 1 } stD :=
  confirm_image_nonredo 2
    { Request.empty with form_action := some "frobnicate", form_post_id := some 1 }
    stD "frobnicate" rfl (by decide)

/-! ## C10: any category other than `'positive'` counts as negative -/

/-- C10: the scorer's negative counter counts exactly the lexicon entries
occurring in the text whose category differs from the literal `'positive'`
— there is no check against `'negative'`, so an entry with an unrecognized
or malformed category that occurs in the text makes the negative count
positive instead of being ignored. -/
theorem analyze_sentiment_nonpositive_category (word_dict : Lexicon) (text : String) :
    (sentimentLoop word_dict text).2
      = word_dict.countP (fun wc => wordIn wc.1 text && !(wc.2 == "positive"))
    ∧ (∀ wc ∈ word_dict, wordIn wc.1 text = true → wc.2 ≠ "positive" →
        0 < neg_count word_dict text) := by
  constructor
  · rw [sentimentLoop_eq_counts]
    rfl
  · intro wc hm hin hcat
    rw [neg_count]
    refine List.countP_pos_iff.mpr ⟨wc, hm, ?_⟩
    simp [hin, hcat]

/-- Witness for `analyze_sentiment_nonpositive_category`: a lexicon row with
the malformed category `"wEiRd"` is counted as a negative hit. -/
theorem analyze_sentiment_nonpositive_category_witness :
    0 < neg_count [("meh", "wEiRd")] "a meh day" :=
  (analyze_sentiment_nonpositive_category [("meh", "wEiRd")] "a meh day").2
    ("meh", "wEiRd") (by decide) (by decide) (by decide)

end Shapediary
